import Mathlib

/-!
Shallow embedding of the orchestration engine of `src/orchestrator/main.py`
(agentic QA framework): the agent registry with its discovery lifecycle, the
exclusivity lock shared between discovery and foreground request handlers, the
submit-then-poll task state machine, and the fan-out/fan-in batch execution
engine.  Python exceptions are embedded as the `Except` monad with an explicit
error type (`_handle_exception` raises `HTTPException`, modelled as
`PyError.http`); the cooperative asyncio interleaving relevant to the lock
discipline is embedded as a trace semantics over lock/registry events.
-/

namespace Orchestrator

/-- Errors raised by the Python code: `HTTPException(status, detail)` raised by
`_handle_exception`, `ValueError` raised on unknown agents, and `IndexError`
raised by out-of-range list indexing such as `artifacts[0]` on an empty list. -/
inductive PyError where
  | http (status : Nat) (detail : String)
  | valueError (msg : String)
  | indexError
deriving DecidableEq, Repr

/-- Embeds `_handle_exception(message, status_code)`: it logs and then raises
`HTTPException(status_code, message)`; it never returns normally. -/
def handleException (message : String) (statusCode : Nat) : Except PyError α :=
  .error (.http statusCode message)

/-! ## Artifacts (`_get_text_content_from_artifacts`, `_get_file_contents_from_artifacts`) -/

/-- The `root` of an a2a `Part`: a `TextPart` with text, a `FilePart` whose
`file` payload we keep abstract as a string, or any other part kind. -/
inductive PartRoot where
  | textPart (text : String)
  | filePart (file : String)
  | otherPart
deriving DecidableEq, Repr

/-- An a2a `Artifact`: a list of parts. -/
structure Artifact where
  parts : List PartRoot
deriving DecidableEq, Repr

/-- The text parts collected from one artifact, in part order. -/
def textPartsOf (a : Artifact) : List String :=
  a.parts.filterMap fun p =>
    match p with
    | .textPart s => some s
    | _ => none

/-- The file payloads collected from one artifact, in part order. -/
def filePartsOf (a : Artifact) : List String :=
  a.parts.filterMap fun p =>
    match p with
    | .filePart f => some f
    | _ => none

/-- Embeds `_get_text_content_from_artifacts(artifacts, task_description,
any_content_expected=True)`: iterates over `artifacts[0].parts` only (an empty
list raises `IndexError`), collects the text of every `TextPart`, raises a 500
via `_handle_exception` when content was expected but none found, and returns
the newline join of the collected texts. -/
def getTextContentFromArtifacts (artifacts : List Artifact) (taskDescription : String)
    (anyContentExpected : Bool) : Except PyError String :=
  match artifacts with
  | [] => .error .indexError
  | a :: _ =>
    let textParts := textPartsOf a
    if anyContentExpected && textParts.isEmpty then
      handleException
        ("Received no text results from the agent after it executed " ++ taskDescription ++ ".") 500
    else
      .ok (String.intercalate "\n" textParts)

/-- Embeds `_get_file_contents_from_artifacts(artifacts)`: iterates over
`artifacts[0].parts` only (an empty list raises `IndexError`) and returns the
`file` payload of every `FilePart`. -/
def getFileContentsFromArtifacts (artifacts : List Artifact) : Except PyError (List String) :=
  match artifacts with
  | [] => .error .indexError
  | a :: _ => .ok (filePartsOf a)

/-! ## Grouping by label (`_group_test_cases_by_labels`) -/

/-- The reserved label `config.OrchestratorConfig.AUTOMATED_TC_LABEL`. -/
def AUTOMATED_TC_LABEL : String := "automated"

/-- The fields of a `TestCase` that the grouping and fan-out code touches. -/
structure TC where
  id : Nat
  labels : List String
deriving DecidableEq, Repr

/-- One `grouped[label].append(tc)` step on the grouping map, embedded as a
function update of the total map backing the `defaultdict(list)`. -/
def appendToGroup (m : String → List TC) (l : String) (tc : TC) : String → List TC :=
  fun l2 => if l2 = l then m l2 ++ [tc] else m l2

/-- The inner loop of `_group_test_cases_by_labels` for one test case:
`for label in tc.labels: if label != AUTOMATED_TC_LABEL: grouped[label].append(tc)`. -/
def groupOneTC (m : String → List TC) (tc : TC) : String → List TC :=
  tc.labels.foldl (fun acc label => if label = AUTOMATED_TC_LABEL then acc
                                    else appendToGroup acc label tc) m

/-- Embeds `_group_test_cases_by_labels(automated_test_cases)` as the mapping
from each label to its ordered group (the `defaultdict` content; absent keys
map to the default `[]`). -/
def groupTestCasesByLabels (tcs : List TC) : String → List TC :=
  tcs.foldl groupOneTC (fun _ => [])

/-! ## Round-robin assignment (`_execute_test_group`) -/

/-- The assignment computed by the loop of `_execute_test_group`:
`for i, test_case in enumerate(test_cases): agent_names[i % num_agents]`,
guarded by `if not agent_names: return []`. -/
def executeTestGroupAssignments (testCases : List TC) (agentNames : List String) :
    List (TC × String) :=
  if agentNames.isEmpty then []
  else testCases.enum.map fun p => (p.2, (agentNames[p.1 % agentNames.length]?).getD "")

/-! ## Exclusivity lock wrapper (`with_exclusive_lock`) -/

/-- Observable outcome of one run of the `with_exclusive_lock` wrapper around a
request handler. -/
structure WrapperOutcome (α : Type) where
  result : Except PyError α
  bodyEntered : Bool
  lockReleased : Bool

/-- Embeds the `wrapper` coroutine of `with_exclusive_lock(func)`.  The
environment fact of whether `discovery_lock.acquire()` completes within
`INCOMING_REQUEST_WAIT_TIMEOUT` is the boolean `acquiredInTime`; `handler` is
the outcome of `await func(...)`.  On a timely acquisition the body runs and
the `finally` block releases the lock; on `TimeoutError` the wrapper calls
`_handle_exception(..., 503)` without running the body, and the `finally`
block skips the release because `lock_acquired` is still false. -/
def withExclusiveLock (acquiredInTime : Bool) (handler : Except PyError α) :
    WrapperOutcome α :=
  if acquiredInTime then
    { result := handler, bodyEntered := true, lockReleased := true }
  else
    { result := handleException "Could not acquire lock to process request, please try again later." 503,
      bodyEntered := false, lockReleased := false }

/-! ## Shutdown path (`lifespan`) -/

/-- The method `asyncio.Task.cancel()` returns `False` when the task is already done, and
`True` when a cancellation request was delivered to a still-pending task. -/
def taskCancelReturns (taskAlreadyDone : Bool) : Bool :=
  !taskAlreadyDone

/-- Embeds the teardown half of `lifespan`: whether the shutdown path awaits
the discovery task.  The code runs `await discovery_task` only under
`if not discovery_task.cancel():`. -/
def lifespanShutdownAwaitsDiscoveryTask (taskAlreadyDone : Bool) : Bool :=
  if !(taskCancelReturns taskAlreadyDone) then true else false

/-! ## Periodic discovery loop (`periodic_agent_discovery`) -/

/-- One iteration of the `while True` body of `periodic_agent_discovery`,
parameterised by the outcome of `await _discover_agents()` (`.ok` when the
refresh ran to completion, `.error msg` when it raised).  The `except Exception`
clause calls `_handle_exception(...)`, which itself raises
`HTTPException(500, ...)`; that exception escapes the iteration (after the
`finally` block logs and sleeps). -/
def periodicDiscoveryIteration (discoverOutcome : Except String Unit) : Except PyError Unit :=
  match discoverOutcome with
  | .ok () => .ok ()
  | .error e =>
    handleException ("An error occurred during periodic agent discovery: " ++ e) 500

/-- Runs the discovery loop through a finite schedule of refresh outcomes:
returns `.ok n` when all `n` scheduled iterations completed and the loop is
still alive, and `.error e` when an iteration let an exception escape, which
terminates the loop coroutine. -/
def periodicAgentDiscoveryRun : List (Except String Unit) → Except PyError Nat
  | [] => .ok 0
  | o :: rest =>
    match periodicDiscoveryIteration o with
    | .ok () =>
      match periodicAgentDiscoveryRun rest with
      | .ok n => .ok (n + 1)
      | .error e => .error e
    | .error e => .error e

/-! ## Submit-then-poll state machine (`_wait_and_get_completed_task`) -/

/-- The a2a `TaskState` values the orchestrator distinguishes. -/
inductive TState where
  | submitted
  | working
  | completed
  | failed
  | otherState
deriving DecidableEq, Repr

/-- Embeds `_is_task_still_running(task_state)`: the Python local
`task_state` starts as `None`, and `None in (TaskState.submitted,
TaskState.working)` is `False`. -/
def isTaskStillRunning : Option TState → Bool
  | some .submitted => true
  | some .working => true
  | _ => false

/-- One response of the agent's `get_task` endpoint: either a
`JSONRPCErrorResponse` or a task whose status carries a state. -/
inductive PollResponse where
  | rpcError (msg : String)
  | taskStatus (state : TState)
deriving DecidableEq, Repr

/-- The environment of one polling session: the response to the i-th status
query and the wall-clock seconds that query takes to come back. -/
structure PollEnv where
  responses : Nat → PollResponse
  durations : Nat → Nat

/-- Embeds the `while` loop of `_wait_and_get_completed_task`.  State: `i` is
the index of the next status query, `elapsed` the seconds since `start_time`,
`lastState` the Python local `task_state`, `queries` the number of status
queries issued so far.  Each iteration recomputes
`remaining = TASK_EXECUTION_TIMEOUT - (now - start_time)` (here
`timeout - elapsed`); the loop runs while it is positive.  Inside, the query is
wrapped in `asyncio.wait_for(..., timeout=remaining)` - a query taking at
least `remaining` seconds raises `asyncio.TimeoutError`, caught by the
`except` clause which raises 408 via `_handle_exception`.  A
`JSONRPCErrorResponse` raises 500.  A still-running state sleeps one second
and re-polls; a terminal state returns the task.  When the loop guard fails,
the code after the `try` raises 408 only if the last observed state was still
running, and otherwise returns `None`. -/
def waitLoop (env : PollEnv) (timeout : Int) (i : Nat) (elapsed : Nat)
    (lastState : Option TState) (queries : Nat) :
    Except PyError (Option TState) × Nat :=
  if _h : 0 < timeout - (elapsed : Int) then
    let remaining := timeout - (elapsed : Int)
    let d := env.durations i
    if (d : Int) ≥ remaining then
      (handleException "Fetching status of the task timed out." 408, queries + 1)
    else
      match env.responses i with
      | .rpcError _ =>
        (handleException "Could not get the status of the task." 500, queries + 1)
      | .taskStatus st =>
        if isTaskStillRunning (some st) then
          waitLoop env timeout (i + 1) (elapsed + d + 1) (some st) (queries + 1)
        else
          (.ok (some st), queries + 1)
  else
    if isTaskStillRunning lastState then
      (handleException "Task was not complete within the configured timeout." 408, queries)
    else
      (.ok none, queries)
termination_by (timeout - (elapsed : Int)).toNat
decreasing_by
  omega

/-- Embeds `_wait_and_get_completed_task(agent_name, ...)`: an unregistered
agent raises `ValueError` before any polling; otherwise the poll loop runs
with `task_state = None`, zero elapsed time and zero issued queries.  The
result is the returned task's terminal state (or `none` for Python `None`)
paired with the number of status queries issued. -/
def waitAndGetCompletedTask (agentRegistered : Bool) (env : PollEnv) (timeout : Int) :
    Except PyError (Option TState) × Nat :=
  if agentRegistered then
    waitLoop env timeout 0 0 none 0
  else
    (.error (.valueError "Agent is not yet registered with his card"), 0)

/-- Embeds `_validate_task_status(task, task_description)`: a `None` task
raises a generic 500, a task in any state other than `completed` raises a 500
naming the unexpected status. -/
def validateTaskStatus (task : Option TState) (taskDescription : String) : Except PyError Unit :=
  match task with
  | none =>
    handleException ("Something went wrong while executing the task for " ++ taskDescription ++ ".") 500
  | some st =>
    if st ≠ .completed then
      handleException ("Task for " ++ taskDescription ++ " has an unexpected status.") 500
    else
      .ok ()

/-- Recognises a timeout-classified failure (HTTP 408), the §7 Timeout bucket. -/
def isTimeoutResult : Except PyError (Option TState) → Bool
  | .error (.http 408 _) => true
  | _ => false

/-! ## Fan-out/fan-in engine (`_execute_single_test`, `_execute_test_group`,
`_select_execution_agents`, `_request_all_test_cases_execution`) -/

/-- Denotation of `asyncio.gather(*tasks)` WITHOUT `return_exceptions=True`: if
any child coroutine raises, the exception propagates to the awaiting coroutine
and no aggregate list is produced; otherwise the list of results in task
order.  (When several children raise, asyncio propagates the earliest failure;
this denotation picks the first in task order, which agrees with asyncio
whenever at most one child raises.) -/
def gatherFailFast : List (Except PyError α) → Except PyError (List α)
  | [] => .ok []
  | x :: xs =>
    match x with
    | .error e => .error e
    | .ok a =>
      match gatherFailFast xs with
      | .ok as => .ok (a :: as)
      | .error e => .error e

/-- The abstract result assembled by `_execute_single_test` on success (the
extracted `TestExecutionResult`); its content is irrelevant to the claims. -/
structure TestResultM where
  testCaseKey : Nat
deriving DecidableEq, Repr

/-- The fate of one fan-out assignment, abstracting the interaction of
`_execute_single_test` with its agent: the submit/poll calls raise, the
completed task carried no artifacts, the artifacts carried no text part, or
everything succeeded and the extractor produced a result. -/
inductive AssignmentFate where
  | submitOrPollRaises (msg : String)
  | noArtifacts
  | noTextContent
  | success (r : TestResultM)
deriving DecidableEq, Repr

/-- Embeds `_execute_single_test(agent_name, test_case, test_type)`.  Every
failure path goes through `_handle_exception(..., 500)`, which RAISES
`HTTPException` (the `except Exception` clause around submit/poll re-raises
this way too); only the success path returns a result.  The declared return
type `TestExecutionResult | None` is mirrored by the `Option`, although no
path returns `none`. -/
def executeSingleTest (fate : AssignmentFate) : Except PyError (Option TestResultM) :=
  match fate with
  | .submitOrPollRaises msg =>
    handleException ("Failed to execute test case. Error: " ++ msg) 500
  | .noArtifacts =>
    handleException "No test case execution results received from agent" 500
  | .noTextContent =>
    handleException "No test case execution information received from agent" 500
  | .success r => .ok (some r)

/-- Embeds `_execute_test_group(test_type, test_cases, agent_names)` given the
fate of the i-th assignment: builds one `_execute_single_test` task per test
case (assigned round-robin), awaits them with `asyncio.gather(*tasks)` (no
`return_exceptions`), and filters out `None` results. -/
def executeTestGroup (testCases : List TC) (agentNames : List String)
    (fate : Nat → AssignmentFate) : Except PyError (List TestResultM) :=
  if agentNames.isEmpty then .ok []
  else
    match gatherFailFast ((List.range testCases.length).map fun i => executeSingleTest (fate i)) with
    | .ok results => .ok (results.filterMap id)
    | .error e => .error e

/-- The agent list the multi-routing step resolves for one label when the
registry is non-empty: `_select_all_suitable_agents` (an LLM call, abstracted
to a function from the prompt label to either an exception or a list of
names) runs under `asyncio.gather(..., return_exceptions=True)` inside
`_select_execution_agents`, so an exception for a label — like an empty
answer — yields `[]` for that label only. -/
def resolvedAgentsFor (oracle : String → Except String (List String)) (l : String) :
    List String :=
  match oracle ("Execute tests having the following label: " ++ l) with
  | .error _ => []
  | .ok names => names

/-- Embeds `_select_execution_agents(labels)`.  The registry is abstracted to
its key list.  With an empty registry every label maps to `[]` without
consulting the oracle; otherwise each label maps to whatever the per-label
resolution yields. -/
def selectExecutionAgents (registry : List String) (labels : List String)
    (oracle : String → Except String (List String)) : List (String × List String) :=
  if registry.isEmpty then labels.map fun l => (l, [])
  else labels.map fun l => (l, resolvedAgentsFor oracle l)

/-- Looks a label up in the selection mapping (`label_to_agents_map.get(label)`
with `None` folded into `[]`, matching the `if agent_names:` truthiness test). -/
def lookupAgents (mapping : List (String × List String)) (l : String) : List String :=
  match mapping.find? fun p => p.1 = l with
  | some p => p.2
  | none => []

/-- Embeds `_request_all_test_cases_execution(grouped_test_cases)`: selects
agents per label, builds an `_execute_test_group` task for every group whose
agent list is non-empty (others are skipped with a warning), awaits the group
tasks with `asyncio.gather(*execution_tasks)` (no `return_exceptions`), and
flattens the per-group result lists. -/
def requestAllTestCasesExecution (registry : List String) (grouped : List (String × List TC))
    (oracle : String → Except String (List String)) (fate : String → Nat → AssignmentFate) :
    Except PyError (List TestResultM) :=
  let mapping := selectExecutionAgents registry (grouped.map Prod.fst) oracle
  let groupsToRun := grouped.filter fun p => !(lookupAgents mapping p.1).isEmpty
  match gatherFailFast (groupsToRun.map fun p => executeTestGroup p.2 (lookupAgents mapping p.1) (fate p.1)) with
  | .ok nested => .ok nested.flatten
  | .error e => .error e

/-! ## Single-best routing (`_choose_agent_name`) -/

/-- Embeds `_choose_agent_name(agent_task_description)` together with a count
of consultations of the routing oracle (`_select_agent`, whose
`result.output.name or None` is folded into `Option String`): an empty
registry raises 404 before consulting the oracle; an empty resolution raises
404 after one consultation; otherwise the name is returned after one
consultation. -/
def chooseAgentName (registry : List String) (oracleResult : Option String) :
    (Except PyError String) × Nat :=
  if registry.isEmpty then
    (handleException "Orchestrator has currently no registered agents." 404, 0)
  else
    match oracleResult with
    | none => (handleException "No agent found to handle the task." 404, 1)
    | some name => (.ok name, 1)

/-! ## Lock-discipline trace semantics (Registry atomicity, C1)

The asyncio runtime interleaves coroutine steps only at suspension points;
`agent_registry` writes happen inside `_discover_agents`, which
`periodic_agent_discovery` runs under `async with discovery_lock`, and every
registry read happens inside a request-handler body wrapped by
`with_exclusive_lock`, which holds the same lock.  We embed executions as
traces of lock/registry events and the asyncio `Lock` semantics as a validity
predicate; the code discipline just described is reflected in the event
preconditions: a write requires the writer to hold the lock, and so does a
read. -/

/-- The two kinds of lock clients: the discovery loop and a foreground
request handler. -/
inductive LActor where
  | discovery
  | handler
deriving DecidableEq, Repr

/-- One scheduler-visible event: lock acquisition and release, a registry
entry write (`agent_registry[name] = card`, performed by discovery inside its
locked region), and a registry read (performed by handler code inside its
locked region). -/
inductive LEvent where
  | acquire (a : LActor)
  | release (a : LActor)
  | write (a : LActor) (key : String) (value : String)
  | readReg (a : LActor)
deriving DecidableEq, Repr

/-- Whether an event may fire when `holder` owns the lock: acquiring requires
a free lock (asyncio `Lock` is not reentrant); releasing requires ownership;
and, per the code discipline above, registry writes and reads happen only
while their actor owns the lock. -/
def eventOk (holder : Option LActor) : LEvent → Bool
  | .acquire _ => holder = none
  | .release a => holder = some a
  | .write a _ _ => holder = some a
  | .readReg a => holder = some a

/-- The lock owner after an event fires. -/
def stepHolder (holder : Option LActor) : LEvent → Option LActor
  | .acquire a => some a
  | .release _ => none
  | .write _ _ _ => holder
  | .readReg _ => holder

/-- Validity of a trace starting from lock owner `holder`: every event fires
in a state that permits it. -/
def validTrace (holder : Option LActor) : List LEvent → Bool
  | [] => true
  | e :: es => eventOk holder e && validTrace (stepHolder holder e) es

/-- The lock owner just before the n-th event of the trace fires. -/
def holderAt (t : List LEvent) (n : Nat) : Option LActor :=
  (t.take n).foldl stepHolder none

/-- The event sequence of one refresh cycle of `periodic_agent_discovery`:
`async with discovery_lock` acquires, `_discover_agents` performs its writes,
and the lock is released at the end of the cycle. -/
def refreshCycleEvents (writes : List (String × String)) : List LEvent :=
  .acquire .discovery :: (writes.map fun p => .write .discovery p.1 p.2) ++ [.release .discovery]

/-- A polling environment whose agent forever reports `working` after one
second per query. -/
def pollEnvAlwaysWorking : PollEnv :=
  { responses := fun _ => .taskStatus .working, durations := fun _ => 1 }

/-- A concrete interleaving: one full refresh cycle writing two registry
entries, followed by a handler that acquires the gate, reads the registry and
releases the gate. -/
def c1TraceExample : List LEvent :=
  refreshCycleEvents [("AgentA", "card1"), ("AgentA", "card2")]
    ++ [.acquire .handler, .readReg .handler, .release .handler]

/-! ## Helper lemmas -/

/-- The inner label fold of `_group_test_cases_by_labels` appends `tc` to the
group of a non-reserved label `l` exactly when `tc` carries `l` (the label
list being duplicate-free), and leaves every other group untouched. -/
theorem groupLabelFold_apply (tc : TC) (l : String) (hl : l ≠ AUTOMATED_TC_LABEL) :
    ∀ (labels : List String) (m : String → List TC), labels.Nodup →
      (labels.foldl (fun acc label => if label = AUTOMATED_TC_LABEL then acc
                                      else appendToGroup acc label tc) m) l
        = m l ++ (if l ∈ labels then [tc] else []) := by
  intro labels
  induction labels with
  | nil => intro m _; simp
  | cons lab rest ih =>
    intro m hnd
    rcases List.nodup_cons.mp hnd with ⟨hnotin, hndrest⟩
    rw [List.foldl_cons]
    by_cases hlab : lab = AUTOMATED_TC_LABEL
    · have hne : l ≠ lab := fun hll => hl (hll.trans hlab)
      rw [if_pos hlab, ih m hndrest]
      simp [List.mem_cons, hne]
    · rw [if_neg hlab]
      by_cases hll : l = lab
      · subst hll
        have hmem : l ∈ l :: rest := List.mem_cons_self l rest
        rw [ih (appendToGroup m l tc) hndrest, if_pos hmem, if_neg hnotin]
        simp [appendToGroup]
      · rw [ih (appendToGroup m lab tc) hndrest]
        have : appendToGroup m lab tc l = m l := by simp [appendToGroup, hll]
        rw [this]
        simp [List.mem_cons, hll]

/-- The outer fold of `_group_test_cases_by_labels`, relative to an arbitrary
accumulated grouping map. -/
theorem groupTestCasesFold_apply (l : String) (hl : l ≠ AUTOMATED_TC_LABEL) :
    ∀ (tcs : List TC) (m : String → List TC), (∀ tc ∈ tcs, tc.labels.Nodup) →
      (tcs.foldl groupOneTC m) l
        = m l ++ tcs.filter (fun tc => decide (l ∈ tc.labels)) := by
  intro tcs
  induction tcs with
  | nil => intro m _; simp
  | cons tc rest ih =>
    intro m hnd
    rw [List.foldl_cons, ih (groupOneTC m tc) (fun x hx => hnd x (List.mem_cons_of_mem tc hx))]
    have hstep : groupOneTC m tc l = m l ++ (if l ∈ tc.labels then [tc] else []) :=
      groupLabelFold_apply tc l hl tc.labels m (hnd tc (List.mem_cons_self tc rest))
    rw [hstep, List.filter_cons]
    by_cases hmem : l ∈ tc.labels
    · simp [hmem, List.append_assoc]
    · simp [hmem]

/-- Looking a label up in the all-empty selection map produced for an empty
registry always yields the empty agent list. -/
theorem lookupAgents_map_empty (ls : List String) (x : String) :
    lookupAgents (ls.map fun l => (l, ([] : List String))) x = [] := by
  induction ls with
  | nil => rfl
  | cons l rest ih =>
    by_cases hxl : l = x
    · simp [lookupAgents, List.find?_cons, hxl]
    · simpa [lookupAgents, List.find?_cons, hxl] using ih

/-- A grouping whose selection map resolves no agents for any label is
filtered down to no runnable groups at all. -/
theorem filter_runnable_groups_empty (grouped : List (String × List TC))
    (mapping : List (String × List String)) (hmap : ∀ x, lookupAgents mapping x = []) :
    (grouped.filter fun p => !(lookupAgents mapping p.1).isEmpty) = [] := by
  induction grouped with
  | nil => rfl
  | cons p rest ih => simp [List.filter_cons, hmap, ih]

/-- Looking a present label up in a selection map that tabulates a function
over the labels yields that function's value (duplicate labels all carry the
same value, so the first `find?` hit is the right one). -/
theorem lookupAgents_map_apply (ls : List String) (f : String → List String) (x : String)
    (hx : x ∈ ls) : lookupAgents (ls.map fun l => (l, f l)) x = f x := by
  induction ls with
  | nil => exact absurd hx (List.not_mem_nil x)
  | cons l rest ih =>
    by_cases hxl : l = x
    · subst hxl
      simp [lookupAgents, List.find?_cons]
    · have hxr : x ∈ rest := by
        cases List.mem_cons.mp hx with
        | inl h => exact absurd h.symm hxl
        | inr h => exact h
      simpa [lookupAgents, List.find?_cons, hxl] using ih hxr

/-- Gathering a list of tasks that all complete normally yields the list of
their results, in task order. -/
theorem gatherFailFast_map_ok (l : List β) (g : β → List TestResultM) :
    gatherFailFast (l.map fun x => Except.ok (g x)) = .ok (l.map g) := by
  induction l with
  | nil => rfl
  | cons x rest ih => simp [gatherFailFast, ih]

/-- A group all of whose assignments succeed returns, for a non-empty agent
list, exactly the per-assignment results in item order. -/
theorem executeTestGroup_success (testCases : List TC) (agents : List String)
    (rs : Nat → TestResultM) (hne : agents.isEmpty = false) :
    executeTestGroup testCases agents (fun i => .success (rs i))
      = .ok ((List.range testCases.length).map rs) := by
  have key : ∀ (idxs : List Nat),
      gatherFailFast (idxs.map fun i =>
          (Except.ok (some (rs i)) : Except PyError (Option TestResultM)))
        = .ok (idxs.map fun i => some (rs i)) := by
    intro idxs
    induction idxs with
    | nil => rfl
    | cons i rest ih => simp [gatherFailFast, ih]
  have key2 : ∀ (idxs : List Nat),
      (idxs.map fun i => some (rs i)).filterMap id = idxs.map rs := by
    intro idxs
    induction idxs with
    | nil => rfl
    | cons i rest ih => simp [List.filterMap_cons, ih]
  simp [executeTestGroup, hne, executeSingleTest, key, key2]

/-! ## Claims -/

/-- C10: when a terminal task's result is turned into text or file content,
only the parts of the first artifact are read — for every artifact list of
length two or more, parts of artifacts after the first contribute nothing to
the extracted result. -/
theorem c10_only_first_artifact_is_read (a b : Artifact) (rest : List Artifact)
    (taskDescription : String) (anyContentExpected : Bool) :
    getTextContentFromArtifacts (a :: b :: rest) taskDescription anyContentExpected
        = getTextContentFromArtifacts [a] taskDescription anyContentExpected
      ∧ getFileContentsFromArtifacts (a :: b :: rest) = getFileContentsFromArtifacts [a] :=
  ⟨rfl, rfl⟩

/-- C6: when the exclusivity gate cannot be acquired within the configured
bounded wait, the caller receives the Busy classification — a retryable
"service busy" error with the service-unavailable status 503 — and the
handler body is never entered. -/
theorem c6_gate_timeout_yields_busy (α : Type) (handler : Except PyError α) :
    (withExclusiveLock false handler).result
        = .error (.http 503 "Could not acquire lock to process request, please try again later.")
      ∧ (withExclusiveLock false handler).bodyEntered = false :=
  ⟨rfl, rfl⟩

/-- C5, code behavior at the failing input: when the discovery task is still
pending at shutdown, `discovery_task.cancel()` returns `True`, so the
`if not discovery_task.cancel():` guard skips the `await discovery_task`
acknowledgement — teardown completes without awaiting the task. -/
theorem c5_shutdown_skips_await_of_pending_task :
    lifespanShutdownAwaitsDiscoveryTask false = false := rfl

/-- C4, code behavior at the failing input: a refresh run that raises is
caught by the `except` clause, which calls `_handle_exception`; that call
itself raises `HTTPException(500, ...)`, which escapes the `while True` loop
and terminates the discovery coroutine — the scheduled second iteration is
never reached. -/
theorem c4_raising_refresh_kills_discovery_loop :
    periodicAgentDiscoveryRun [.error "probe failed", .ok ()]
      = .error (.http 500 "An error occurred during periodic agent discovery: probe failed") := rfl

/-- C2, code behavior at the failing input: in a batch of two assignments
where the first one's submission raises, `_execute_single_test` re-raises via
`_handle_exception(..., 500)`, and `asyncio.gather` (used without
`return_exceptions=True`) propagates that exception — the whole group fails
and the second assignment's successful outcome (which `executeSingleTest`
would deliver) is absent from any aggregate. -/
theorem c2_one_failing_assignment_aborts_the_batch :
    executeTestGroup [⟨1, []⟩, ⟨2, []⟩] ["X", "Y"]
        (fun i => if i = 0 then .submitOrPollRaises "boom" else .success ⟨2⟩)
      = .error (.http 500 "Failed to execute test case. Error: boom")
    ∧ executeSingleTest (.success ⟨2⟩) = .ok (some ⟨2⟩) :=
  ⟨rfl, rfl⟩

/-- C8: item `i` of a group is assigned to executor `i mod n` of the group's
`n` resolved executors; in particular, 5 items across `[X, Y]` are assigned
`X, Y, X, Y, X` in item order. -/
theorem c8_round_robin_assignment (testCases : List TC) (agentNames : List String)
    (hne : agentNames ≠ []) :
    (∀ i tc a, testCases[i]? = some tc →
        agentNames[i % agentNames.length]? = some a →
        (executeTestGroupAssignments testCases agentNames)[i]? = some (tc, a))
    ∧ executeTestGroupAssignments [⟨1, []⟩, ⟨2, []⟩, ⟨3, []⟩, ⟨4, []⟩, ⟨5, []⟩] ["X", "Y"]
        = [(⟨1, []⟩, "X"), (⟨2, []⟩, "Y"), (⟨3, []⟩, "X"), (⟨4, []⟩, "Y"), (⟨5, []⟩, "X")] := by
  constructor
  · intro i tc a htc ha
    have hempty : agentNames.isEmpty = false := by
      cases agentNames with
      | nil => exact absurd rfl hne
      | cons x xs => rfl
    simp [executeTestGroupAssignments, hempty, List.getElem?_map, List.getElem?_enum, htc, ha]
  · decide

/-- C8 witness: the round-robin theorem applied to a concrete 2-item, 2-agent
group. -/
theorem c8_round_robin_assignment_witness :
    (executeTestGroupAssignments [⟨1, []⟩, ⟨2, []⟩] ["X", "Y"])[1]? = some (⟨2, []⟩, "Y") :=
  (c8_round_robin_assignment [⟨1, []⟩, ⟨2, []⟩] ["X", "Y"] (by decide)).1 1 ⟨2, []⟩ "Y" rfl rfl

/-- C9: `_group_test_cases_by_labels` groups the items under every
non-reserved label they carry, preserving item order within each group (an
item with several labels appears in every corresponding group); in
particular, items `(1, [a, b])` and `(2, [a])` yield group `a = [1, 2]` and
group `b = [1]`. -/
theorem c9_group_by_label (tcs : List TC) (l : String)
    (hl : l ≠ AUTOMATED_TC_LABEL) (hnd : ∀ tc ∈ tcs, tc.labels.Nodup) :
    groupTestCasesByLabels tcs l = tcs.filter (fun tc => decide (l ∈ tc.labels))
    ∧ groupTestCasesByLabels [⟨1, ["a", "b"]⟩, ⟨2, ["a"]⟩] "a"
        = [⟨1, ["a", "b"]⟩, ⟨2, ["a"]⟩]
    ∧ groupTestCasesByLabels [⟨1, ["a", "b"]⟩, ⟨2, ["a"]⟩] "b" = [⟨1, ["a", "b"]⟩] := by
  refine ⟨?_, by decide, by decide⟩
  have h := groupTestCasesFold_apply l hl tcs (fun _ => []) hnd
  simpa [groupTestCasesByLabels] using h

/-- C9 witness: the grouping theorem applied to the spec's concrete example. -/
theorem c9_group_by_label_witness :
    groupTestCasesByLabels [⟨1, ["a", "b"]⟩, ⟨2, ["a"]⟩] "a"
      = List.filter (fun tc => decide ("a" ∈ tc.labels)) [⟨1, ["a", "b"]⟩, ⟨2, ["a"]⟩] :=
  (c9_group_by_label [⟨1, ["a", "b"]⟩, ⟨2, ["a"]⟩] "a" (by decide) (by decide)).1

/-- C3 counterexample: with the remaining time budget already non-positive at
entry, the poll loop body never runs and the Python local `task_state` is
still `None`, so the post-loop check `_is_task_still_running(None)` is false
and the function returns `None` — zero status queries are issued, but the
result is NOT a Timeout-classified (408) failure, contradicting the claim. -/
theorem c3_counterexample_no_timeout_classification :
    waitAndGetCompletedTask true pollEnvAlwaysWorking 0 = (.ok none, 0)
    ∧ isTimeoutResult (waitAndGetCompletedTask true pollEnvAlwaysWorking 0).1 = false := by
  have h : waitLoop pollEnvAlwaysWorking 0 0 0 none 0 = (.ok none, 0) := by
    unfold waitLoop
    norm_num [isTaskStillRunning]
  exact ⟨by simpa [waitAndGetCompletedTask] using h,
         by simp [waitAndGetCompletedTask, h, isTimeoutResult]⟩

/-- C3 amended: a poll-until-terminal wait whose overall deadline is already
in the past at entry issues zero status queries and returns `None` — which
the callers then surface through `_validate_task_status` as a generic 500
processing failure, not as a Timeout-classified one. -/
theorem c3_amended_past_deadline_returns_none (env : PollEnv) (timeout : Int)
    (ht : timeout ≤ 0) :
    waitAndGetCompletedTask true env timeout = (.ok none, 0)
    ∧ (∀ d, validateTaskStatus none d
        = .error (.http 500 ("Something went wrong while executing the task for " ++ d ++ "."))) := by
  constructor
  · have hcond : ¬ (0 < timeout - ((0 : Nat) : Int)) := by omega
    have h : waitLoop env timeout 0 0 none 0 = (.ok none, 0) := by
      unfold waitLoop
      rw [dif_neg hcond]
      rfl
    simpa [waitAndGetCompletedTask] using h
  · intro d
    rfl

/-- C3 amended witness: the amended claim at a concrete environment and a
concrete negative budget. -/
theorem c3_amended_past_deadline_returns_none_witness :
    waitAndGetCompletedTask true pollEnvAlwaysWorking (-1) = (.ok none, 0) :=
  (c3_amended_past_deadline_returns_none pollEnvAlwaysWorking (-1) (by decide)).1

/-- C7 counterexample: in the batch-execution workflow, an empty registry is
NOT surfaced as a "not found" failure — `_select_execution_agents` maps every
label to no agents, every group is skipped with a warning, and the request
completes successfully with an empty aggregate (HTTP 200 with a "Ran 0 tests"
message), even though the routing oracle could have resolved an agent. -/
theorem c7_counterexample_empty_registry_batch_succeeds :
    requestAllTestCasesExecution [] [("ui", [⟨1, []⟩])]
        (fun _ => .ok ["X"]) (fun _ _ => .success ⟨1⟩)
      = .ok [] := by
  rfl

/-- C7 amended: in the single-routing workflows an empty registry, or an
unresolved task, is surfaced as a 404 "not found" failure, and the routing
oracle is consulted at most once (never retried).  In the batch-execution
workflow neither condition surfaces a not-found failure: with an empty
registry every group is skipped and the request completes successfully with
an empty aggregate; with a non-empty registry exactly the groups whose
routing resolved no executors are skipped, and — provided no executed
assignment raises — the request completes successfully with the aggregated
per-item outcomes of the resolved groups alone. -/
theorem c7_amended_routing_unavailability (registry : List String)
    (grouped : List (String × List TC)) (oracle : String → Except String (List String))
    (fate : String → Nat → AssignmentFate) (oracleResult : Option String)
    (rs : String → Nat → TestResultM) (hne : registry ≠ []) :
    chooseAgentName [] oracleResult
        = (.error (.http 404 "Orchestrator has currently no registered agents."), 0)
    ∧ chooseAgentName registry none
        = (.error (.http 404 "No agent found to handle the task."), 1)
    ∧ (chooseAgentName registry oracleResult).2 ≤ 1
    ∧ requestAllTestCasesExecution [] grouped oracle fate = .ok []
    ∧ requestAllTestCasesExecution registry grouped oracle (fun l i => .success (rs l i))
        = .ok ((grouped.filter fun p => !(resolvedAgentsFor oracle p.1).isEmpty).map
            fun p => (List.range p.2.length).map (rs p.1)).flatten := by
  refine ⟨rfl, ?_, ?_, ?_, ?_⟩
  · cases registry with
    | nil => exact absurd rfl hne
    | cons x xs => rfl
  · by_cases hre : registry.isEmpty = true
    · simp [chooseAgentName, hre]
    · cases oracleResult <;> simp [chooseAgentName, hre]
  · have hmap : ∀ x, lookupAgents (selectExecutionAgents [] (grouped.map Prod.fst) oracle) x = [] := by
      intro x
      show lookupAgents ((grouped.map Prod.fst).map fun l => (l, [])) x = []
      exact lookupAgents_map_empty _ x
    show (match gatherFailFast
            ((grouped.filter fun p =>
                !(lookupAgents (selectExecutionAgents [] (grouped.map Prod.fst) oracle) p.1).isEmpty).map
              fun p => executeTestGroup p.2
                (lookupAgents (selectExecutionAgents [] (grouped.map Prod.fst) oracle) p.1)
                (fate p.1)) with
          | Except.ok nested => Except.ok nested.flatten
          | Except.error err => Except.error err) = Except.ok []
    rw [filter_runnable_groups_empty grouped _ hmap]
    rfl
  · have hempty : registry.isEmpty = false := by
      cases registry with
      | nil => exact absurd rfl hne
      | cons x xs => rfl
    have hmapeq : selectExecutionAgents registry (grouped.map Prod.fst) oracle
        = (grouped.map Prod.fst).map fun l => (l, resolvedAgentsFor oracle l) := by
      simp [selectExecutionAgents, hempty]
    have hlook : ∀ p ∈ grouped,
        lookupAgents (selectExecutionAgents registry (grouped.map Prod.fst) oracle) p.1
          = resolvedAgentsFor oracle p.1 := by
      intro p hp
      rw [hmapeq]
      exact lookupAgents_map_apply (grouped.map Prod.fst) (resolvedAgentsFor oracle) p.1
        (List.mem_map_of_mem Prod.fst hp)
    show (match gatherFailFast
            ((grouped.filter fun p =>
                !(lookupAgents (selectExecutionAgents registry (grouped.map Prod.fst) oracle) p.1).isEmpty).map
              fun p => executeTestGroup p.2
                (lookupAgents (selectExecutionAgents registry (grouped.map Prod.fst) oracle) p.1)
                (fun i => AssignmentFate.success (rs p.1 i))) with
          | Except.ok nested => Except.ok nested.flatten
          | Except.error err => Except.error err)
        = Except.ok ((grouped.filter fun p => !(resolvedAgentsFor oracle p.1).isEmpty).map
            fun p => (List.range p.2.length).map (rs p.1)).flatten
    have hfilter : (grouped.filter fun p =>
          !(lookupAgents (selectExecutionAgents registry (grouped.map Prod.fst) oracle) p.1).isEmpty)
        = grouped.filter fun p => !(resolvedAgentsFor oracle p.1).isEmpty :=
      List.filter_congr fun p hp => by rw [hlook p hp]
    rw [hfilter]
    have hmapfn : (grouped.filter fun p => !(resolvedAgentsFor oracle p.1).isEmpty).map
          (fun p => executeTestGroup p.2
            (lookupAgents (selectExecutionAgents registry (grouped.map Prod.fst) oracle) p.1)
            (fun i => AssignmentFate.success (rs p.1 i)))
        = (grouped.filter fun p => !(resolvedAgentsFor oracle p.1).isEmpty).map
          (fun p => Except.ok ((List.range p.2.length).map (rs p.1))) := by
      apply List.map_congr_left
      intro p hp
      have hpg : p ∈ grouped := (List.mem_filter.mp hp).1
      have hres := (List.mem_filter.mp hp).2
      rw [hlook p hpg]
      refine executeTestGroup_success p.2 (resolvedAgentsFor oracle p.1) (rs p.1) ?_
      revert hres
      cases (resolvedAgentsFor oracle p.1).isEmpty <;> simp
    rw [hmapfn, gatherFailFast_map_ok]

/-- C7 amended witness: the batch-path conjunct at a concrete one-agent
registry with one resolved group (label `ui`, one item) and one unresolved
group (label `api`), every executed assignment succeeding — the unresolved
group is skipped and the request completes with the resolved group's single
outcome, no not-found failure. -/
theorem c7_amended_routing_unavailability_witness :
    requestAllTestCasesExecution ["E1"] [("ui", [⟨1, []⟩]), ("api", [⟨2, []⟩])]
        (fun d => if d = "Execute tests having the following label: ui" then .ok ["E1"]
                  else .ok [])
        (fun _ i => .success ⟨i⟩)
      = .ok [⟨0⟩] :=
  ((c7_amended_routing_unavailability ["E1"] [("ui", [⟨1, []⟩]), ("api", [⟨2, []⟩])]
      (fun d => if d = "Execute tests having the following label: ui" then .ok ["E1"]
                else .ok [])
      (fun _ _ => .noArtifacts) none (fun _ i => ⟨i⟩) (by decide)).2.2.2.2).trans (by rfl)

/-! ## C1: atomicity of the refresh with respect to readers -/

/-- The lock owner evolves by one step when one more event of the trace is
consumed. -/
theorem holderAt_succ (t : List LEvent) (n : Nat) :
    holderAt t (n + 1)
      = match t[n]? with
        | some e => stepHolder (holderAt t n) e
        | none => holderAt t n := by
  unfold holderAt
  rw [List.take_succ, List.foldl_append]
  cases h : t[n]? <;> simp [h]

/-- In a valid trace, every event is permitted by the lock state in force
just before it fires. -/
theorem validTrace_eventOk :
    ∀ (t : List LEvent) (h0 : Option LActor), validTrace h0 t = true →
      ∀ (n : Nat) (e : LEvent), t[n]? = some e →
        eventOk ((t.take n).foldl stepHolder h0) e = true := by
  intro t
  induction t with
  | nil =>
    intro h0 _ n e hn
    simp at hn
  | cons x xs ih =>
    intro h0 hv n e hn
    rw [validTrace, Bool.and_eq_true] at hv
    cases n with
    | zero =>
      rw [List.getElem?_cons_zero] at hn
      injection hn with hxe
      subst hxe
      simpa using hv.1
    | succ m =>
      rw [List.getElem?_cons_succ] at hn
      have h := ih (stepHolder h0 x) hv.2 m e hn
      simpa [List.foldl_cons] using h

/-- While discovery has acquired the lock at position `s` and no discovery
release occurs before position `e`, discovery keeps owning the lock at every
position of the half-open range from `s + 1` up to `e`. -/
theorem discovery_holds_lock (t : List LEvent) (s e : Nat)
    (hv : validTrace none t = true)
    (hs : t[s]? = some (.acquire .discovery))
    (hnorel : ∀ m, s < m → m < e → t[m]? ≠ some (.release .discovery)) :
    ∀ k, s + 1 + k ≤ e → holderAt t (s + 1 + k) = some .discovery := by
  intro k
  induction k with
  | zero =>
    intro _
    rw [holderAt_succ, hs]
    rfl
  | succ j ih =>
    intro hle
    have hcur : holderAt t (s + 1 + j) = some .discovery := ih (by omega)
    have heq : s + 1 + (j + 1) = (s + 1 + j) + 1 := by omega
    rw [heq, holderAt_succ]
    cases hev : t[s + 1 + j]? with
    | none => exact hcur
    | some ev =>
      have hok := validTrace_eventOk t none hv (s + 1 + j) ev hev
      rw [show (t.take (s + 1 + j)).foldl stepHolder none = holderAt t (s + 1 + j) from rfl,
          hcur] at hok
      cases ev with
      | acquire a => simp [eventOk] at hok
      | release a =>
        simp [eventOk] at hok
        subst hok
        exact absurd hev (hnorel (s + 1 + j) (by omega) (by omega))
      | write a key v => simpa [stepHolder] using hcur
      | readReg a => simpa [stepHolder] using hcur

/-- C1: under the exclusivity gate discipline — the refresh cycle acquires
the lock at position `s` and does not release it before position `e`, and a
handler read requires holding the same lock — a handler's registry read at
position `j` of a valid trace precedes all registry writes of that refresh
cycle or follows all of them; it never lands between two of them, so the
reader observes the registry entirely pre-refresh or entirely post-refresh. -/
theorem c1_registry_refresh_atomic_wrt_readers (t : List LEvent) (s e j : Nat)
    (hv : validTrace none t = true)
    (hs : t[s]? = some (.acquire .discovery))
    (hnorel : ∀ m ∈ List.range e, s < m → t[m]? ≠ some (.release .discovery))
    (hj : t[j]? = some (.readReg .handler)) :
    (∀ m ∈ List.range e, s < m →
        ∀ key v, t[m]? = some (.write .discovery key v) → j < m)
    ∨ (∀ m ∈ List.range e, s < m →
        ∀ key v, t[m]? = some (.write .discovery key v) → m < j) := by
  have hnorel' : ∀ m, s < m → m < e → t[m]? ≠ some (.release .discovery) := by
    intro m h1 h2
    exact hnorel m (List.mem_range.mpr h2) h1
  have hout : j ≤ s ∨ e ≤ j := by
    by_contra hcon
    push_neg at hcon
    obtain ⟨hjs, hje⟩ := hcon
    have hhold : holderAt t j = some .discovery := by
      have hk := discovery_holds_lock t s e hv hs hnorel' (j - s - 1) (by omega)
      have hje' : s + 1 + (j - s - 1) = j := by omega
      rwa [hje'] at hk
    have hok := validTrace_eventOk t none hv j _ hj
    rw [show (t.take j).foldl stepHolder none = holderAt t j from rfl, hhold] at hok
    simp [eventOk] at hok
  cases hout with
  | inl h =>
    exact Or.inl (fun m hm hsm key v _ => by omega)
  | inr h =>
    refine Or.inr (fun m hm hsm key v _ => ?_)
    have := List.mem_range.mp hm
    omega

/-- C1 witness: the atomicity theorem applied to the concrete interleaving,
with the refresh cycle spanning positions 0 to 3 and the handler read at
position 5. -/
theorem c1_registry_refresh_atomic_wrt_readers_witness :
    (∀ m ∈ List.range 3, 0 < m →
        ∀ key v, c1TraceExample[m]? = some (.write .discovery key v) → 5 < m)
    ∨ (∀ m ∈ List.range 3, 0 < m →
        ∀ key v, c1TraceExample[m]? = some (.write .discovery key v) → m < 5) :=
  c1_registry_refresh_atomic_wrt_readers c1TraceExample 0 3 5
    (by decide) (by decide) (by decide) (by decide)

end Orchestrator
